import Mathlib

/-!
Shallow embedding of the `plantegg/log_cleaner` scripts — v1 `log_cleaner.py`
(quota mode), v2 `log_cleaner_v2.py` and v3 `log_cleaner_v3.py` (threshold
mode) — together with proofs of the specification claims.  File-system and
process facts the scripts query (stat, disk usage, lsof, remove) are an
explicit environment; the decision logic is translated statement by
statement from the Python sources.
-/

namespace LogCleaner

/-! ### File Classifier: models of the regular expressions in `find_log_files` -/

/-- One regex atom: a literal character or Python `\d` (modelled on its
ASCII fragment, the only digits the date patterns are about). -/
inductive Tok where
  | lit (c : Char)
  | digit
deriving DecidableEq

def isPyDigit (c : Char) : Bool := c.isDigit

def tokMatch : Tok → Char → Bool
  | Tok.lit c, x => x == c
  | Tok.digit, x => isPyDigit x

/-- Python `$` (no `re.M`): the rest of the subject must be empty or one
final newline. -/
def endDollar : List Char → Bool
  | [] => true
  | [c] => c == '\n'
  | _ => false

/-- Match a fixed token sequence, then hand the rest to the continuation. -/
def matchSeq : List Tok → (List Char → Bool) → List Char → Bool
  | [], k, cs => k cs
  | _ :: _, _, [] => false
  | t :: ts, k, c :: cs => tokMatch t c && matchSeq ts k cs

/-- Python `\d*` before a continuation. -/
def manyDigitsThen (k : List Char → Bool) : List Char → Bool
  | [] => k []
  | c :: cs => k (c :: cs) || (isPyDigit c && manyDigitsThen k cs)

/-- Python `\d+` before a continuation. -/
def onePlusDigitsThen (k : List Char → Bool) : List Char → Bool
  | [] => false
  | c :: cs => isPyDigit c && manyDigitsThen k cs

/-- Python `.*` before a continuation (`.` does not match a newline). -/
def dotStarThen (k : List Char → Bool) : List Char → Bool
  | [] => k []
  | c :: cs => k (c :: cs) || (c != '\n' && dotStarThen k cs)

def lits (s : String) : List Tok := s.data.map Tok.lit

def ddToks : List Tok := [Tok.digit, Tok.digit]

/-- Token form of `\.log\.20\d{2}-\d{2}-\d{2}` (rotated-with-date suffix). -/
def dateToks : List Tok :=
  lits ".log.20" ++ ddToks ++ lits "-" ++ ddToks ++ lits "-" ++ ddToks

/-- Token form of `\.log\.20\d{2}-\d{2}-\d{2}-\d{2}` (date plus hour). -/
def dateHourToks : List Tok := dateToks ++ lits "-" ++ ddToks

/-- Model of `re.match(r'.*\.log\.20\d{2}-\d{2}-\d{2}$', s)` and, with
`withHour`, of `re.match(r'.*\.log\.20\d{2}-\d{2}-\d{2}-\d{2}$', s)`
(v2 lines 86-87, v3 lines 63-64). -/
def dateSuffixPat (withHour : Bool) (cs : List Char) : Bool :=
  dotStarThen (matchSeq (if withHour then dateHourToks else dateToks) endDollar) cs

/-- Model of `re.match(r'<head>\.20\d{2}-\d{2}-\d{2}\.\d+\.log$', s)` where
`head` is `log` or `trace` (date-and-sequence rotation). -/
def seqLogPat (head : String) (cs : List Char) : Bool :=
  matchSeq (lits (head ++ ".20") ++ ddToks ++ lits "-" ++ ddToks ++ lits "-" ++ ddToks ++ lits ".")
    (onePlusDigitsThen (matchSeq (lits ".log") endDollar)) cs

/-- Model of `re.match(r'\d+\.log$', s)` (sequence-only rotation). -/
def numLogPat (cs : List Char) : Bool :=
  onePlusDigitsThen (matchSeq (lits ".log") endDollar) cs

/-- v1 classifier, `log_cleaner.py` lines 34-37: it has no
`.log.YYYY-MM-DD` / `.log.YYYY-MM-DD-HH` patterns. -/
def isLogName_v1 (s : String) : Bool :=
  ".log".data.isSuffixOf s.data
  || seqLogPat "log" s.data
  || seqLogPat "trace" s.data
  || numLogPat s.data

/-- v2 classifier, `log_cleaner_v2.py` lines 85-90. -/
def isLogName_v2 (s : String) : Bool :=
  ".log".data.isSuffixOf s.data
  || dateSuffixPat true s.data
  || dateSuffixPat false s.data
  || seqLogPat "log" s.data
  || seqLogPat "trace" s.data
  || numLogPat s.data

/-- v3 classifier, `log_cleaner_v3.py` lines 61-68 (`.*\.log$` as a regex
instead of `str.endswith`). -/
def isLogName_v3 (s : String) : Bool :=
  dotStarThen (matchSeq (lits ".log") endDollar) s.data
  || dateSuffixPat true s.data
  || dateSuffixPat false s.data
  || seqLogPat "log" s.data
  || seqLogPat "trace" s.data
  || numLogPat s.data

/-! ### Environment and run state -/

/-- Result of `os.remove` / `Path.unlink` on one path: success,
`FileNotFoundError`, or another `OSError`. -/
inductive RmRes where
  | ok
  | notFound
  | err
deriving DecidableEq

/-- The point-in-time filesystem / process facts the scripts query.
`usage` is the disk-usage percentage of v2's `get_disk_usage` (`none` when
both probes fail, lines 43-64); `mtime`/`size` are `none` when the stat
raises `OSError`. -/
structure Env where
  now : Int
  mtime : String → Option Int
  inUse : String → Bool
  usage : String → Option ℚ
  fileExists : String → Bool
  size : String → Option Nat
  removeRes : String → RmRes

inductive SkipReason where
  | recent
  | inUse
deriving DecidableEq

/-- The counters and per-file lists of one run (`deleted_count`,
`deleted_size`, `skipped_files`, `failed_files`), plus two observations:
`removedFiles` — paths whose remove call actually succeeded, in order — and
`countedFiles` — paths the script counted into `deleted_count`. -/
structure RunState where
  deletedCount : Nat
  deletedSize : Nat
  removedFiles : List String
  countedFiles : List String
  skippedFiles : List (String × SkipReason)
  failedFiles : List String
deriving DecidableEq

def RunState.init : RunState := ⟨0, 0, [], [], [], []⟩

/-- `is_file_recent` of v2/v3: the (freshly statted) mtime is after
`now - hours`; a failed stat conservatively counts as recent. -/
def is_file_recent (env : Env) (p : String) (hours : Int) : Bool :=
  match env.mtime p with
  | some m => decide (env.now - hours * 3600 < m)
  | none => true

/-! ### Sorting (Python `list.sort` on `(mtime, path)` tuples) -/

/-- Ascending Python tuple order on `(mtime, path)` pairs. -/
def pairLeAsc (a b : Int × String) : Prop :=
  a.1 < b.1 ∨ (a.1 = b.1 ∧ a.2 ≤ b.2)

/-- Descending tuple order, `sort(reverse=True)` of v1. -/
def pairLeDesc (a b : Int × String) : Prop :=
  b.1 < a.1 ∨ (a.1 = b.1 ∧ b.2 ≤ a.2)

instance : DecidableRel pairLeAsc := fun a b => by
  unfold pairLeAsc; infer_instance

instance : DecidableRel pairLeDesc := fun a b => by
  unfold pairLeDesc; infer_instance

instance : IsTotal (Int × String) pairLeAsc :=
  ⟨fun a b => by
    unfold pairLeAsc
    rcases lt_trichotomy a.1 b.1 with h | h | h
    · exact Or.inl (Or.inl h)
    · rcases le_total a.2 b.2 with h2 | h2
      · exact Or.inl (Or.inr ⟨h, h2⟩)
      · exact Or.inr (Or.inr ⟨h.symm, h2⟩)
    · exact Or.inr (Or.inl h)⟩

instance : IsTrans (Int × String) pairLeAsc :=
  ⟨fun a b c hab hbc => by
    unfold pairLeAsc at hab hbc ⊢
    rcases hab with h1 | ⟨e1, s1⟩ <;> rcases hbc with h2 | ⟨e2, s2⟩
    · exact Or.inl (h1.trans h2)
    · exact Or.inl (lt_of_lt_of_le h1 (le_of_eq e2))
    · exact Or.inl (lt_of_le_of_lt (le_of_eq e1) h2)
    · exact Or.inr ⟨e1.trans e2, s1.trans s2⟩⟩

instance : IsTotal (Int × String) pairLeDesc :=
  ⟨fun a b => by
    unfold pairLeDesc
    rcases lt_trichotomy b.1 a.1 with h | h | h
    · exact Or.inl (Or.inl h)
    · rcases le_total b.2 a.2 with h2 | h2
      · exact Or.inl (Or.inr ⟨h.symm, h2⟩)
      · exact Or.inr (Or.inr ⟨h, h2⟩)
    · exact Or.inr (Or.inl h)⟩

instance : IsTrans (Int × String) pairLeDesc :=
  ⟨fun a b c hab hbc => by
    unfold pairLeDesc at hab hbc ⊢
    rcases hab with h1 | ⟨e1, s1⟩ <;> rcases hbc with h2 | ⟨e2, s2⟩
    · exact Or.inl (h2.trans h1)
    · exact Or.inl (lt_of_le_of_lt (le_of_eq e2.symm) h1)
    · exact Or.inl (lt_of_lt_of_le h2 (le_of_eq e1.symm))
    · exact Or.inr ⟨e1.trans e2, s2.trans s1⟩⟩

/-- `log_files.sort()` (ascending; v2 line 186, v3 line 165).  Python's sort
is stable, as is insertion sort, so the model is exact. -/
def sortAsc (l : List (Int × String)) : List (Int × String) :=
  List.insertionSort pairLeAsc l

/-- `log_files.sort(reverse=True)` (descending; v1 line 101). -/
def sortDesc (l : List (Int × String)) : List (Int × String) :=
  List.insertionSort pairLeDesc l

/-! ### Threshold engines (v2 and v3) -/

/-- The per-file disk re-check of v2 (lines 220-226): scan the configured
roots in order; for each root that is a raw string prefix of the path,
sample its usage; keep the first sample at or below the threshold (a failed
probe or an over-threshold sample moves on to the next root). -/
def currentUsage_v2 (env : Env) (T : ℚ) (dirs : List String) (p : String) : Option ℚ :=
  match dirs with
  | [] => none
  | d :: rest =>
    if d.data.isPrefixOf p.data then
      match env.usage d with
      | some u => if u ≤ T then some u else currentUsage_v2 env T rest p
      | none => currentUsage_v2 env T rest p
    else currentUsage_v2 env T rest p

/-- The per-file disk re-check of v3 (lines 195-201); v3's probe cannot
report failure (`shutil.disk_usage` would raise), so its samples are a
total function `u3`. -/
def currentUsage_v3 (u3 : String → ℚ) (T : ℚ) (dirs : List String) (p : String) : Option ℚ :=
  match dirs with
  | [] => none
  | d :: rest =>
    if d.data.isPrefixOf p.data then
      if u3 d ≤ T then some (u3 d) else currentUsage_v3 u3 T rest p
    else currentUsage_v3 u3 T rest p

/-- The try-block of v2's deletion loop (lines 233-264) for one file:
a vanished file is only reported; a failed `getsize` or a failed
`os.remove` (`FileNotFoundError` included — it is an `OSError`) lands in
`failed_files`; counters move only after a successful remove (or, in a dry
run, after the preview line).  The interactive first-deletion prompt is the
out-of-scope confirmation collaborator and is elided. -/
def deleteStep_v2 (env : Env) (dryRun : Bool) (p : String) (st : RunState) : RunState :=
  if env.fileExists p then
    match env.size p with
    | none => { st with failedFiles := st.failedFiles ++ [p] }
    | some sz =>
      if dryRun then
        { st with deletedCount := st.deletedCount + 1,
                  deletedSize := st.deletedSize + sz,
                  countedFiles := st.countedFiles ++ [p] }
      else
        match env.removeRes p with
        | RmRes.ok =>
            { st with deletedCount := st.deletedCount + 1,
                      deletedSize := st.deletedSize + sz,
                      countedFiles := st.countedFiles ++ [p],
                      removedFiles := st.removedFiles ++ [p] }
        | RmRes.notFound => { st with failedFiles := st.failedFiles ++ [p] }
        | RmRes.err => { st with failedFiles := st.failedFiles ++ [p] }
  else st

/-- v2's deletion loop (lines 208-264) over an already-ordered file list:
recency gate, in-use gate, usage stop check, then the delete step. -/
def loop_v2 (env : Env) (T : ℚ) (dirs : List String) (dryRun : Bool) :
    List (Int × String) → RunState → RunState
  | [], st => st
  | (_, p) :: rest, st =>
    if is_file_recent env p 24 then
      loop_v2 env T dirs dryRun rest
        { st with skippedFiles := st.skippedFiles ++ [(p, SkipReason.recent)] }
    else if env.inUse p then
      loop_v2 env T dirs dryRun rest
        { st with skippedFiles := st.skippedFiles ++ [(p, SkipReason.inUse)] }
    else if (currentUsage_v2 env T dirs p).isSome then st
    else loop_v2 env T dirs dryRun rest (deleteStep_v2 env dryRun p st)

/-- v2 `main` deletion phase: sort the candidates ascending (line 186), then
iterate `reversed(log_files)` (line 208). -/
def run_v2 (env : Env) (T : ℚ) (dirs : List String) (dryRun : Bool)
    (candidates : List (Int × String)) : RunState :=
  loop_v2 env T dirs dryRun (sortAsc candidates).reverse RunState.init

/-- The try-block of v3's deletion loop (lines 207-231) for one file:
a failed stat is only reported; otherwise the counters move *before*
`unlink` is attempted; `FileNotFoundError` is only reported, another
`OSError` lands in `failed_files` — in neither case are the counters
rolled back. -/
def deleteStep_v3 (env : Env) (dryRun : Bool) (p : String) (st : RunState) : RunState :=
  match env.size p with
  | none => st
  | some sz =>
    let st1 : RunState :=
      { st with deletedSize := st.deletedSize + sz,
                deletedCount := st.deletedCount + 1,
                countedFiles := st.countedFiles ++ [p] }
    if dryRun then st1
    else
      match env.removeRes p with
      | RmRes.ok => { st1 with removedFiles := st1.removedFiles ++ [p] }
      | RmRes.notFound => st1
      | RmRes.err => { st1 with failedFiles := st1.failedFiles ++ [p] }

/-- v3's deletion loop (lines 183-231) over an already-ordered file list. -/
def loop_v3 (env : Env) (u3 : String → ℚ) (T : ℚ) (dirs : List String) (dryRun : Bool) :
    List (Int × String) → RunState → RunState
  | [], st => st
  | (_, p) :: rest, st =>
    if is_file_recent env p 24 then
      loop_v3 env u3 T dirs dryRun rest
        { st with skippedFiles := st.skippedFiles ++ [(p, SkipReason.recent)] }
    else if env.inUse p then
      loop_v3 env u3 T dirs dryRun rest
        { st with skippedFiles := st.skippedFiles ++ [(p, SkipReason.inUse)] }
    else if (currentUsage_v3 u3 T dirs p).isSome then st
    else loop_v3 env u3 T dirs dryRun rest (deleteStep_v3 env dryRun p st)

/-- v3 `main` deletion phase: iterate the ascending-sorted candidate list
directly (line 183). -/
def run_v3 (env : Env) (u3 : String → ℚ) (T : ℚ) (dirs : List String) (dryRun : Bool)
    (candidates : List (Int × String)) : RunState :=
  loop_v3 env u3 T dirs dryRun (sortAsc candidates) RunState.init

/-- v2 pre-scan warnings (lines 149-153): roots whose probe failed are
reported with a warning. -/
def prescanWarnings_v2 (env : Env) (dirs : List String) : List String :=
  dirs.filter (fun d => (env.usage d).isNone)

/-- v2 pre-scan `need_cleanup` (lines 146-170): true when some root's probe
succeeded and came back strictly over the threshold; a failed probe
contributes nothing. -/
def needCleanup_v2 (env : Env) (T : ℚ) (dirs : List String) : Bool :=
  dirs.any (fun d =>
    match env.usage d with
    | some u => decide (T < u)
    | none => false)

/-! ### Quota engine (v1) -/

/-- `keep_count = int(total_files * keep_percent / 100)` of v1 line 109
(floor; `int()` truncation of the true-division float agrees with floor
division at any realistic file count). -/
def keepCount_v1 (total percent : Nat) : Nat := total * percent / 100

/-- `delete_count = total_files - keep_count` of v1 line 110. -/
def deleteCount_v1 (total percent : Nat) : Nat := total - keepCount_v1 total percent

/-- `files_to_delete = log_files[-delete_count:]` of v1 line 121, taken from
the descending-sorted list (v1 only evaluates it when `delete_count > 0`;
for `delete_count = 0` the run has already ended with no selection). -/
def filesToDelete_v1 (candidates : List (Int × String)) (percent : Nat) :
    List (Int × String) :=
  let sorted := sortDesc candidates
  sorted.drop (sorted.length - deleteCount_v1 sorted.length percent)

/-- v1 deletion loop (lines 158-170): delete a file only if it still
exists; a failed `getsize` or `os.remove` lands in `failed_files`;
counters move only after a successful remove.  v1 applies no recency or
in-use gate. -/
def deleteLoop_v1 (env : Env) : List (Int × String) → RunState → RunState
  | [], st => st
  | (_, p) :: rest, st =>
    deleteLoop_v1 env rest
      (if env.fileExists p then
        match env.size p with
        | none => { st with failedFiles := st.failedFiles ++ [p] }
        | some sz =>
          match env.removeRes p with
          | RmRes.ok =>
              { st with deletedCount := st.deletedCount + 1,
                        deletedSize := st.deletedSize + sz,
                        countedFiles := st.countedFiles ++ [p],
                        removedFiles := st.removedFiles ++ [p] }
          | RmRes.notFound => { st with failedFiles := st.failedFiles ++ [p] }
          | RmRes.err => { st with failedFiles := st.failedFiles ++ [p] }
      else st)

/-- The paths v1 prints in its preview (lines 123-133): every entry of
`files_to_delete`; this is also the dry-run "would delete" report. -/
def wouldDelete_v1 (candidates : List (Int × String)) (percent : Nat) : List String :=
  (filesToDelete_v1 candidates percent).map Prod.snd

/-- v1 `main` deletion phase: nothing happens when `delete_count == 0`
(line 116) or under `--dry-run` (line 137); otherwise the selected tail is
deleted. -/
def run_v1 (env : Env) (percent : Nat) (dryRun : Bool)
    (candidates : List (Int × String)) : RunState :=
  if deleteCount_v1 candidates.length percent = 0 then RunState.init
  else if dryRun then RunState.init
  else deleteLoop_v1 env (filesToDelete_v1 candidates percent) RunState.init

/-! ### Concrete environments for evaluating the engines -/

/-- A quiet environment: no file recent (mtime 0, now far later), nothing in
use, every probe at 90 percent, every file present with 100 bytes, every
remove succeeding. -/
def envBase : Env :=
  { now := 1000000
    mtime := fun _ => some 0
    inUse := fun _ => false
    usage := fun _ => some 90
    fileExists := fun _ => true
    size := fun _ => some 100
    removeRes := fun _ => RmRes.ok }

/-- Like `envBase` but every remove raises `OSError`. -/
def envFailRemove : Env := { envBase with removeRes := fun _ => RmRes.err }

/-- Like `envBase` but every file was modified one second ago. -/
def envRecent : Env := { envBase with mtime := fun _ => some 999999 }

/-- Like `envBase` but the root `/var/log` samples at 50 percent while every
other directory samples at 99 percent. -/
def envTwoRoots : Env :=
  { envBase with usage := fun d => if d = "/var/log" then some 50 else some 99 }

/-- Like `envBase` but every disk-usage probe fails. -/
def envProbeFail : Env := { envBase with usage := fun _ => none }

/-- Two candidates, one old and one new. -/
def candsPair : List (Int × String) := [(0, "/logs/old.log"), (100, "/logs/new.log")]

/-- Three candidates with distinct modification times. -/
def candsTriple : List (Int × String) :=
  [(5, "/a/one.log"), (1, "/a/three.log"), (3, "/a/two.log")]

/-! ### Helper lemmas -/

lemma deleteStep_v2_keeps_out (env : Env) (dry : Bool) (q : String) (st : RunState)
    (p : String) (hne : p ≠ q)
    (h1 : p ∉ st.removedFiles) (h2 : p ∉ st.countedFiles) (h3 : p ∉ st.failedFiles) :
    p ∉ (deleteStep_v2 env dry q st).removedFiles ∧
    p ∉ (deleteStep_v2 env dry q st).countedFiles ∧
    p ∉ (deleteStep_v2 env dry q st).failedFiles := by
  by_cases hex : env.fileExists q = true
  · rcases hsz : env.size q with _ | sz
    · refine ⟨?_, ?_, ?_⟩ <;> simp_all [deleteStep_v2, List.mem_append]
    · by_cases hdry : dry = true
      · refine ⟨?_, ?_, ?_⟩ <;> simp_all [deleteStep_v2, List.mem_append]
      · rcases hrm : env.removeRes q with _ | _ | _ <;>
          refine ⟨?_, ?_, ?_⟩ <;> simp_all [deleteStep_v2, List.mem_append]
  · refine ⟨?_, ?_, ?_⟩ <;> simp_all [deleteStep_v2]

lemma deleteStep_v3_keeps_out (env : Env) (dry : Bool) (q : String) (st : RunState)
    (p : String) (hne : p ≠ q)
    (h1 : p ∉ st.removedFiles) (h2 : p ∉ st.countedFiles) (h3 : p ∉ st.failedFiles) :
    p ∉ (deleteStep_v3 env dry q st).removedFiles ∧
    p ∉ (deleteStep_v3 env dry q st).countedFiles ∧
    p ∉ (deleteStep_v3 env dry q st).failedFiles := by
  rcases hsz : env.size q with _ | sz
  · refine ⟨?_, ?_, ?_⟩ <;> simp_all [deleteStep_v3]
  · by_cases hdry : dry = true
    · refine ⟨?_, ?_, ?_⟩ <;> simp_all [deleteStep_v3, List.mem_append]
    · rcases hrm : env.removeRes q with _ | _ | _ <;>
        refine ⟨?_, ?_, ?_⟩ <;> simp_all [deleteStep_v3, List.mem_append]

lemma loop_v2_keeps_out (env : Env) (T : ℚ) (dirs : List String) (dry : Bool)
    (p : String) (hrec : is_file_recent env p 24 = true) :
    ∀ (files : List (Int × String)) (st : RunState),
      p ∉ st.removedFiles → p ∉ st.countedFiles → p ∉ st.failedFiles →
      p ∉ (loop_v2 env T dirs dry files st).removedFiles ∧
      p ∉ (loop_v2 env T dirs dry files st).countedFiles ∧
      p ∉ (loop_v2 env T dirs dry files st).failedFiles := by
  intro files
  induction files with
  | nil => intro st h1 h2 h3; exact ⟨h1, h2, h3⟩
  | cons f rest ih =>
    obtain ⟨m, q⟩ := f
    intro st h1 h2 h3
    by_cases hpq : p = q
    · subst hpq
      simp only [loop_v2, hrec, if_true]
      exact ih _ h1 h2 h3
    · simp only [loop_v2]
      by_cases hq : is_file_recent env q 24 = true
      · simp only [hq, if_true]
        exact ih _ h1 h2 h3
      · simp only [Bool.not_eq_true] at hq
        simp only [hq]
        by_cases hu : env.inUse q = true
        · simp only [hu, if_true]
          exact ih _ h1 h2 h3
        · simp only [Bool.not_eq_true] at hu
          simp only [hu]
          by_cases hc : (currentUsage_v2 env T dirs q).isSome = true
          · simp only [hc, if_true]
            exact ⟨h1, h2, h3⟩
          · simp only [Bool.not_eq_true] at hc
            simp only [hc]
            obtain ⟨g1, g2, g3⟩ := deleteStep_v2_keeps_out env dry q st p hpq h1 h2 h3
            exact ih _ g1 g2 g3

lemma loop_v3_keeps_out (env : Env) (u3 : String → ℚ) (T : ℚ) (dirs : List String)
    (dry : Bool) (p : String) (hrec : is_file_recent env p 24 = true) :
    ∀ (files : List (Int × String)) (st : RunState),
      p ∉ st.removedFiles → p ∉ st.countedFiles → p ∉ st.failedFiles →
      p ∉ (loop_v3 env u3 T dirs dry files st).removedFiles ∧
      p ∉ (loop_v3 env u3 T dirs dry files st).countedFiles ∧
      p ∉ (loop_v3 env u3 T dirs dry files st).failedFiles := by
  intro files
  induction files with
  | nil => intro st h1 h2 h3; exact ⟨h1, h2, h3⟩
  | cons f rest ih =>
    obtain ⟨m, q⟩ := f
    intro st h1 h2 h3
    by_cases hpq : p = q
    · subst hpq
      simp only [loop_v3, hrec, if_true]
      exact ih _ h1 h2 h3
    · simp only [loop_v3]
      by_cases hq : is_file_recent env q 24 = true
      · simp only [hq, if_true]
        exact ih _ h1 h2 h3
      · simp only [Bool.not_eq_true] at hq
        simp only [hq]
        by_cases hu : env.inUse q = true
        · simp only [hu, if_true]
          exact ih _ h1 h2 h3
        · simp only [Bool.not_eq_true] at hu
          simp only [hu]
          by_cases hc : (currentUsage_v3 u3 T dirs q).isSome = true
          · simp only [hc, if_true]
            exact ⟨h1, h2, h3⟩
          · simp only [Bool.not_eq_true] at hc
            simp only [hc]
            obtain ⟨g1, g2, g3⟩ := deleteStep_v3_keeps_out env dry q st p hpq h1 h2 h3
            exact ih _ g1 g2 g3

/-! ### Claim theorems -/

/-- Claim C1 (code bug in v2): threshold-mode deletion is claimed to proceed
strictly oldest first, and v3 does iterate the ascending list; but v2 sorts
ascending and then iterates `reversed(log_files)` (line 208), so on two
deletable candidates with old < new mtime the v2 run removes the newest
file first — contradicting the comment directly above its own loop
("start deleting from the oldest file"). -/
theorem c1_threshold_iteration_order :
    (run_v2 envBase 70 ["/logs"] false candsPair).removedFiles
      = ["/logs/new.log", "/logs/old.log"] ∧
    (run_v3 envBase (fun _ => 90) 70 ["/logs"] false candsPair).removedFiles
      = ["/logs/old.log", "/logs/new.log"] := by
  exact ⟨by decide, by decide⟩

/-- Claim C2, counterexample: quota mode (v1) applies no recency gate, so a
live v1 run deletes its sole candidate even though the file was modified one
second before "now" (well inside the 24-hour window). -/
theorem c2_quota_deletes_recent_file :
    envRecent.mtime "/logs/a.log" = some 999999 ∧
    envRecent.now - 999999 < 24 * 3600 ∧
    (run_v1 envRecent 50 false [(999999, "/logs/a.log")]).removedFiles
      = ["/logs/a.log"] := by
  refine ⟨rfl, by decide, by decide⟩

/-- Claim C2 as amended: in threshold mode (v2 and v3), in any run — dry or
live — a candidate whose modification time is less than 24 hours before
"now" is never removed from the filesystem, never counted as deleted and
never recorded as failed: it is skipped by the recency gate whenever the
loop reaches it. -/
theorem c2_threshold_never_removes_recent
    (env : Env) (u3 : String → ℚ) (T : ℚ) (dirs : List String) (dry : Bool)
    (cands : List (Int × String)) (p : String) (m : Int)
    (hm : env.mtime p = some m) (hrecent : env.now - m < 24 * 3600) :
    (p ∉ (run_v2 env T dirs dry cands).removedFiles ∧
     p ∉ (run_v2 env T dirs dry cands).countedFiles ∧
     p ∉ (run_v2 env T dirs dry cands).failedFiles) ∧
    (p ∉ (run_v3 env u3 T dirs dry cands).removedFiles ∧
     p ∉ (run_v3 env u3 T dirs dry cands).countedFiles ∧
     p ∉ (run_v3 env u3 T dirs dry cands).failedFiles) := by
  have hrec : is_file_recent env p 24 = true := by
    unfold is_file_recent
    rw [hm]
    simp only [decide_eq_true_eq]
    omega
  constructor
  · exact loop_v2_keeps_out env T dirs dry p hrec _ RunState.init
      (by simp [RunState.init]) (by simp [RunState.init]) (by simp [RunState.init])
  · exact loop_v3_keeps_out env u3 T dirs dry p hrec _ RunState.init
      (by simp [RunState.init]) (by simp [RunState.init]) (by simp [RunState.init])

/-- Witness for the amended claim C2 at a concrete input. -/
theorem c2_threshold_never_removes_recent_witness :
    (envRecent.mtime "/logs/a.log" = some 999999 ∧
     envRecent.now - 999999 < 24 * 3600) ∧
    ("/logs/a.log" ∉
        (run_v2 envRecent 70 ["/logs"] false [(999999, "/logs/a.log")]).removedFiles ∧
     "/logs/a.log" ∉
        (run_v3 envRecent (fun _ => 90) 70 ["/logs"] false
          [(999999, "/logs/a.log")]).removedFiles) :=
  ⟨⟨rfl, by decide⟩,
    (c2_threshold_never_removes_recent envRecent (fun _ => 90) 70 ["/logs"] false
      [(999999, "/logs/a.log")] "/logs/a.log" 999999 rfl (by decide)).1.1,
    (c2_threshold_never_removes_recent envRecent (fun _ => 90) 70 ["/logs"] false
      [(999999, "/logs/a.log")] "/logs/a.log" 999999 rfl (by decide)).2.1⟩

/-- Claim C3 (code bug in v3): v3 increments `deleted_count`/`deleted_size`
before attempting `unlink` (lines 217-218 precede line 223) and never rolls
them back, so a candidate whose remove raises `OSError` is still counted:
the run reports one deleted file of 100 bytes while nothing was removed and
the file sits in `failed_files` — contradicting its own summary line
("successfully deleted N files") and the spec invariant.  v1 and v2
increment only after a successful remove. -/
theorem c3_v3_counts_failed_remove :
    (run_v3 envFailRemove (fun _ => 90) 70 ["/logs"] false
        [(0, "/logs/a.log")]).deletedCount = 1 ∧
    (run_v3 envFailRemove (fun _ => 90) 70 ["/logs"] false
        [(0, "/logs/a.log")]).deletedSize = 100 ∧
    (run_v3 envFailRemove (fun _ => 90) 70 ["/logs"] false
        [(0, "/logs/a.log")]).removedFiles = [] ∧
    (run_v3 envFailRemove (fun _ => 90) 70 ["/logs"] false
        [(0, "/logs/a.log")]).failedFiles = ["/logs/a.log"] ∧
    (run_v1 envFailRemove 10 false [(0, "/logs/a.log")]).deletedCount = 0 ∧
    (run_v2 envFailRemove 70 ["/logs"] false [(0, "/logs/a.log")]).deletedCount = 0 := by
  refine ⟨by decide, by decide, by decide, by decide, by decide, by decide⟩

lemma sortDesc_length (cands : List (Int × String)) :
    (sortDesc cands).length = cands.length :=
  (List.perm_insertionSort pairLeDesc cands).length_eq

lemma keepCount_v1_le (total percent : Nat) (h : percent ≤ 99) :
    keepCount_v1 total percent ≤ total := by
  unfold keepCount_v1
  calc total * percent / 100 ≤ total * 100 / 100 :=
        Nat.div_le_div_right (Nat.mul_le_mul_left total (h.trans (by norm_num)))
    _ = total := Nat.mul_div_cancel total (by norm_num)

lemma filesToDelete_v1_eq_drop (cands : List (Int × String)) (percent : Nat)
    (h : percent ≤ 99) :
    filesToDelete_v1 cands percent
      = (sortDesc cands).drop (keepCount_v1 cands.length percent) := by
  simp only [filesToDelete_v1, deleteCount_v1]
  rw [sortDesc_length, Nat.sub_sub_self (keepCount_v1_le cands.length percent h)]

/-- Claim C4 (confirmed): in quota mode (v1), for a candidate list of size
`totalCount` and a `keepPercent` in `[1, 99]`: `keepCount` is the floor of
`totalCount * keepPercent / 100`, `keepCount + deleteCount = totalCount`,
the selection has exactly `deleteCount` entries, retained prefix and deleted
suffix partition the newest-first ordering, and no retained file is strictly
older than any deleted file. -/
theorem c4_quota_selection (cands : List (Int × String)) (percent : Nat)
    (hp1 : 1 ≤ percent) (hp2 : percent ≤ 99) (hne : cands ≠ []) :
    keepCount_v1 cands.length percent + deleteCount_v1 cands.length percent
        = cands.length ∧
    (filesToDelete_v1 cands percent).length = deleteCount_v1 cands.length percent ∧
    (sortDesc cands).take (keepCount_v1 cands.length percent)
        ++ filesToDelete_v1 cands percent = sortDesc cands ∧
    ∀ x ∈ (sortDesc cands).take (keepCount_v1 cands.length percent),
      ∀ y ∈ filesToDelete_v1 cands percent, y.1 ≤ x.1 := by
  have hLen := sortDesc_length cands
  have hk : keepCount_v1 cands.length percent ≤ cands.length :=
    keepCount_v1_le cands.length percent hp2
  have hdrop := filesToDelete_v1_eq_drop cands percent hp2
  refine ⟨?_, ?_, ?_, ?_⟩
  · unfold deleteCount_v1
    omega
  · rw [hdrop, List.length_drop, hLen]
    unfold deleteCount_v1
    rfl
  · rw [hdrop, List.take_append_drop]
  · intro x hx y hy
    have hsorted : List.Sorted pairLeDesc (sortDesc cands) :=
      List.sorted_insertionSort pairLeDesc cands
    rw [← List.take_append_drop (keepCount_v1 cands.length percent) (sortDesc cands)]
      at hsorted
    obtain ⟨-, -, hrel⟩ := List.pairwise_append.mp hsorted
    rw [hdrop] at hy
    rcases hrel x hx y hy with hlt | ⟨heq, -⟩
    · exact le_of_lt hlt
    · exact le_of_eq heq.symm

/-- Witness for claim C4 at a concrete input: three candidates,
`keepPercent = 50`, so one file is kept and the two oldest are selected. -/
theorem c4_quota_selection_witness :
    (1 ≤ 50 ∧ 50 ≤ 99 ∧ candsTriple ≠ []) ∧
    (keepCount_v1 candsTriple.length 50 + deleteCount_v1 candsTriple.length 50
        = candsTriple.length ∧
     (filesToDelete_v1 candsTriple 50).length = deleteCount_v1 candsTriple.length 50 ∧
     (sortDesc candsTriple).take (keepCount_v1 candsTriple.length 50)
        ++ filesToDelete_v1 candsTriple 50 = sortDesc candsTriple ∧
     ∀ x ∈ (sortDesc candsTriple).take (keepCount_v1 candsTriple.length 50),
       ∀ y ∈ filesToDelete_v1 candsTriple 50, y.1 ≤ x.1) :=
  ⟨⟨by norm_num, by norm_num, by decide⟩,
    c4_quota_selection candsTriple 50 (by norm_num) (by norm_num) (by decide)⟩

/-- Claim C9 (confirmed): in quota mode, whenever
`totalCount * keepPercent < 100` — a single candidate with any percentage in
`[1, 99]`, for instance — `keepCount` computes to 0, `deleteCount` equals
`totalCount`, and the deletion selection is the entire sorted candidate
list, so every candidate including the newest is selected. -/
theorem c9_quota_small_product_deletes_all (cands : List (Int × String))
    (percent : Nat) (h : cands.length * percent < 100) :
    keepCount_v1 cands.length percent = 0 ∧
    deleteCount_v1 cands.length percent = cands.length ∧
    filesToDelete_v1 cands percent = sortDesc cands ∧
    ∀ f ∈ cands, f ∈ filesToDelete_v1 cands percent := by
  have hLen := sortDesc_length cands
  have hk : keepCount_v1 cands.length percent = 0 := Nat.div_eq_of_lt h
  have hd : deleteCount_v1 cands.length percent = cands.length := by
    unfold deleteCount_v1
    omega
  have hfd : filesToDelete_v1 cands percent = sortDesc cands := by
    simp only [filesToDelete_v1, deleteCount_v1]
    rw [hLen]
    have : cands.length - (cands.length - keepCount_v1 cands.length percent) = 0 := by
      omega
    rw [this, List.drop_zero]
  refine ⟨hk, hd, hfd, ?_⟩
  intro f hf
  rw [hfd]
  exact ((List.perm_insertionSort pairLeDesc cands).mem_iff).mpr hf

/-- Witness for claim C9 at a concrete input: one candidate, 50 percent. -/
theorem c9_quota_small_product_witness :
    ([((5 : Int), "/a/one.log")].length * 50 < 100) ∧
    (keepCount_v1 [((5 : Int), "/a/one.log")].length 50 = 0 ∧
     deleteCount_v1 [((5 : Int), "/a/one.log")].length 50
        = [((5 : Int), "/a/one.log")].length ∧
     filesToDelete_v1 [((5 : Int), "/a/one.log")] 50
        = sortDesc [((5 : Int), "/a/one.log")] ∧
     ∀ f ∈ [((5 : Int), "/a/one.log")],
       f ∈ filesToDelete_v1 [((5 : Int), "/a/one.log")] 50) :=
  ⟨by decide, c9_quota_small_product_deletes_all [((5 : Int), "/a/one.log")] 50 (by decide)⟩

lemma currentUsage_v2_isSome (env : Env) (T : ℚ) (p : String) :
    ∀ (dirs : List String) (r : String), r ∈ dirs →
      r.data.isPrefixOf p.data = true →
      ∀ u : ℚ, env.usage r = some u → u ≤ T →
      (currentUsage_v2 env T dirs p).isSome = true := by
  intro dirs
  induction dirs with
  | nil => intro r hr; simp at hr
  | cons d rest ih =>
    intro r hr hpre u hu hle
    rcases List.mem_cons.mp hr with rfl | hr'
    · simp only [currentUsage_v2, hpre, if_true, hu]
      by_cases h : u ≤ T
      · simp [h]
      · exact absurd hle h
    · simp only [currentUsage_v2]
      by_cases hd : d.data.isPrefixOf p.data = true
      · simp only [hd, if_true]
        rcases hud : env.usage d with _ | v
        · exact ih r hr' hpre u hu hle
        · by_cases hv : v ≤ T
          · simp [hv]
          · simp only [hv, if_false]
            exact ih r hr' hpre u hu hle
      · simp only [Bool.not_eq_true] at hd
        simp only [hd]
        exact ih r hr' hpre u hu hle

lemma currentUsage_v3_isSome (u3 : String → ℚ) (T : ℚ) (p : String) :
    ∀ (dirs : List String) (r : String), r ∈ dirs →
      r.data.isPrefixOf p.data = true → u3 r ≤ T →
      (currentUsage_v3 u3 T dirs p).isSome = true := by
  intro dirs
  induction dirs with
  | nil => intro r hr; simp at hr
  | cons d rest ih =>
    intro r hr hpre hle
    rcases List.mem_cons.mp hr with rfl | hr'
    · simp only [currentUsage_v3, hpre, if_true]
      by_cases h : u3 r ≤ T
      · simp [h]
      · exact absurd hle h
    · simp only [currentUsage_v3]
      by_cases hd : d.data.isPrefixOf p.data = true
      · simp only [hd, if_true]
        by_cases hv : u3 d ≤ T
        · simp [hv]
        · simp only [hv, if_false]
          exact ih r hr' hpre hle
      · simp only [Bool.not_eq_true] at hd
        simp only [hd]
        exact ih r hr' hpre hle

lemma currentUsage_v2_none (env : Env) (T : ℚ) (p : String) :
    ∀ dirs : List String,
      (∀ r ∈ dirs, r.data.isPrefixOf p.data = true → env.usage r = none) →
      currentUsage_v2 env T dirs p = none := by
  intro dirs
  induction dirs with
  | nil => intro _; rfl
  | cons d rest ih =>
    intro hall
    simp only [currentUsage_v2]
    by_cases hd : d.data.isPrefixOf p.data = true
    · simp only [hd, if_true, hall d (List.mem_cons_self d rest) hd]
      exact ih fun r hr hpre => hall r (List.mem_cons_of_mem d hr) hpre
    · simp only [Bool.not_eq_true] at hd
      simp only [hd]
      exact ih fun r hr hpre => hall r (List.mem_cons_of_mem d hr) hpre

/-- Claim C5 (confirmed): in threshold mode, when the safety gates pass for
the file at the head of the remaining list and some configured root owning
the file (a string prefix of its path) samples at or below the threshold,
both v2 and v3 stop the entire loop at once: the run state is returned
unchanged, so the current file is not deleted and no later candidate is
processed — whatever the usage of any other root. -/
theorem c5_threshold_early_stop (env : Env) (u3 : String → ℚ) (T : ℚ)
    (dirs : List String) (dry : Bool) (m : Int) (p : String)
    (rest : List (Int × String)) (st : RunState)
    (hrec : is_file_recent env p 24 = false)
    (huse : env.inUse p = false)
    (h2 : ∃ r ∈ dirs, r.data.isPrefixOf p.data = true ∧
            ∃ u : ℚ, env.usage r = some u ∧ u ≤ T)
    (h3 : ∃ r ∈ dirs, r.data.isPrefixOf p.data = true ∧ u3 r ≤ T) :
    loop_v2 env T dirs dry ((m, p) :: rest) st = st ∧
    loop_v3 env u3 T dirs dry ((m, p) :: rest) st = st := by
  obtain ⟨r2, hr2, hpre2, u, hu, hle⟩ := h2
  obtain ⟨r3, hr3, hpre3, hle3⟩ := h3
  have hs2 := currentUsage_v2_isSome env T p dirs r2 hr2 hpre2 u hu hle
  have hs3 := currentUsage_v3_isSome u3 T p dirs r3 hr3 hpre3 hle3
  constructor
  · simp only [loop_v2, hrec, huse, hs2]
    simp
  · simp only [loop_v3, hrec, huse, hs3]
    simp

/-- Witness for claim C5 at a concrete input: one far-over-threshold run in
which the root of the single candidate samples at 90 with threshold 95, so
the loop stops before deleting anything. -/
theorem c5_threshold_early_stop_witness :
    (is_file_recent envBase "/logs/a.log" 24 = false ∧
     envBase.inUse "/logs/a.log" = false ∧
     (∃ r ∈ ["/logs"], r.data.isPrefixOf "/logs/a.log".data = true ∧
        ∃ u : ℚ, envBase.usage r = some u ∧ u ≤ 95) ∧
     (∃ r ∈ ["/logs"], r.data.isPrefixOf "/logs/a.log".data = true ∧
        (fun _ : String => (90 : ℚ)) r ≤ 95)) ∧
    (loop_v2 envBase 95 ["/logs"] false [(0, "/logs/a.log")] RunState.init
        = RunState.init ∧
     loop_v3 envBase (fun _ => (90 : ℚ)) 95 ["/logs"] false
        [(0, "/logs/a.log")] RunState.init = RunState.init) :=
  ⟨⟨by decide, rfl,
    ⟨"/logs", by decide, by decide, 90, rfl, by norm_num⟩,
    ⟨"/logs", by decide, by decide, by norm_num⟩⟩,
   c5_threshold_early_stop envBase (fun _ => (90 : ℚ)) 95 ["/logs"] false 0
     "/logs/a.log" [] RunState.init (by decide) rfl
     ⟨"/logs", by decide, by decide, 90, rfl, by norm_num⟩
     ⟨"/logs", by decide, by decide, by norm_num⟩⟩

/-- Claim C7 (confirmed): in v2's threshold loop a failed disk-usage probe
(`None`) never triggers the usage-based early stop: a root probing `None`
is transparent to the per-file check, and when every root owning the file
probes `None` the loop neither stops nor skips — it proceeds to the delete
step and then to the remaining candidates; at the pre-scan such a root is
reported as a warning and contributes nothing to `need_cleanup` in either
direction. -/
theorem c7_probe_failure_no_early_stop (env : Env) (T : ℚ) (dirs : List String)
    (dry : Bool) (d p : String) (m : Int) (rest : List (Int × String))
    (st : RunState)
    (hd : env.usage d = none)
    (hmem : d ∈ dirs)
    (hrec : is_file_recent env p 24 = false)
    (huse : env.inUse p = false)
    (hall : ∀ r ∈ dirs, r.data.isPrefixOf p.data = true → env.usage r = none) :
    currentUsage_v2 env T (d :: dirs) p = currentUsage_v2 env T dirs p ∧
    loop_v2 env T dirs dry ((m, p) :: rest) st
      = loop_v2 env T dirs dry rest (deleteStep_v2 env dry p st) ∧
    d ∈ prescanWarnings_v2 env dirs ∧
    needCleanup_v2 env T (d :: dirs) = needCleanup_v2 env T dirs := by
  refine ⟨?_, ?_, ?_, ?_⟩
  · simp only [currentUsage_v2]
    by_cases hdp : d.data.isPrefixOf p.data = true
    · simp [hdp, hd]
    · simp only [Bool.not_eq_true] at hdp
      simp [hdp]
  · have hnone := currentUsage_v2_none env T p dirs hall
    simp only [loop_v2, hrec, huse, hnone]
    simp
  · exact List.mem_filter.mpr ⟨hmem, by rw [hd]; rfl⟩
  · simp only [needCleanup_v2, List.any_cons, hd]
    exact Bool.false_or _

/-- Witness for claim C7 at a concrete input: every probe fails, yet the
single candidate is still deleted. -/
theorem c7_probe_failure_witness :
    (envProbeFail.usage "/logs" = none ∧
     "/logs" ∈ ["/logs"] ∧
     is_file_recent envProbeFail "/logs/a.log" 24 = false ∧
     envProbeFail.inUse "/logs/a.log" = false) ∧
    (currentUsage_v2 envProbeFail 70 ["/logs", "/logs"] "/logs/a.log"
        = currentUsage_v2 envProbeFail 70 ["/logs"] "/logs/a.log" ∧
     loop_v2 envProbeFail 70 ["/logs"] false [(0, "/logs/a.log")] RunState.init
        = loop_v2 envProbeFail 70 ["/logs"] false []
            (deleteStep_v2 envProbeFail false "/logs/a.log" RunState.init) ∧
     "/logs" ∈ prescanWarnings_v2 envProbeFail ["/logs"] ∧
     needCleanup_v2 envProbeFail 70 ["/logs", "/logs"]
        = needCleanup_v2 envProbeFail 70 ["/logs"]) :=
  ⟨⟨rfl, by decide, by decide, rfl⟩,
   c7_probe_failure_no_early_stop envProbeFail 70 ["/logs"] false "/logs"
     "/logs/a.log" 0 [] RunState.init rfl (by decide) (by decide) rfl
     (fun r hr _ => by
       rcases List.mem_singleton.mp hr with rfl
       rfl)⟩

lemma deleteStep_v2_dry_live (env : Env) (q : String) (stD stL : RunState)
    (hok : env.removeRes q = RmRes.ok)
    (hinv : stD.countedFiles = stL.removedFiles) :
    (deleteStep_v2 env true q stD).countedFiles
      = (deleteStep_v2 env false q stL).removedFiles := by
  by_cases hex : env.fileExists q = true
  · rcases hsz : env.size q with _ | sz
    · simp only [deleteStep_v2, hex, if_true, hsz]
      exact hinv
    · simp only [deleteStep_v2, hex, if_true, hsz, hok, if_true, if_false]
      simp [hinv]
  · simp only [Bool.not_eq_true] at hex
    simp only [deleteStep_v2, hex]
    simp only [Bool.false_eq_true, if_false]
    exact hinv

lemma deleteStep_v3_dry_live (env : Env) (q : String) (stD stL : RunState)
    (hok : env.removeRes q = RmRes.ok)
    (hinv : stD.countedFiles = stL.removedFiles) :
    (deleteStep_v3 env true q stD).countedFiles
      = (deleteStep_v3 env false q stL).removedFiles := by
  rcases hsz : env.size q with _ | sz
  · simp only [deleteStep_v3, hsz]
    exact hinv
  · simp only [deleteStep_v3, hsz, hok]
    simp [hinv]

lemma loop_v2_dry_live (env : Env) (T : ℚ) (dirs : List String) :
    ∀ (files : List (Int × String)) (stD stL : RunState),
      (∀ f ∈ files, env.removeRes f.2 = RmRes.ok) →
      stD.countedFiles = stL.removedFiles →
      (loop_v2 env T dirs true files stD).countedFiles
        = (loop_v2 env T dirs false files stL).removedFiles := by
  intro files
  induction files with
  | nil => intro stD stL _ hinv; exact hinv
  | cons f rest ih =>
    obtain ⟨m, q⟩ := f
    intro stD stL hok hinv
    have hokq : env.removeRes q = RmRes.ok := hok (m, q) (List.mem_cons_self _ _)
    have hokr : ∀ f ∈ rest, env.removeRes f.2 = RmRes.ok :=
      fun f hf => hok f (List.mem_cons_of_mem _ hf)
    by_cases hq : is_file_recent env q 24 = true
    · simp only [loop_v2, hq, if_true]
      exact ih _ _ hokr hinv
    · simp only [Bool.not_eq_true] at hq
      simp only [loop_v2, hq]
      by_cases hu : env.inUse q = true
      · simp only [hu, if_true]
        exact ih _ _ hokr hinv
      · simp only [Bool.not_eq_true] at hu
        simp only [hu]
        by_cases hc : (currentUsage_v2 env T dirs q).isSome = true
        · simp only [hc, if_true]
          exact hinv
        · simp only [Bool.not_eq_true] at hc
          simp only [hc]
          exact ih _ _ hokr (deleteStep_v2_dry_live env q stD stL hokq hinv)

lemma loop_v3_dry_live (env : Env) (u3 : String → ℚ) (T : ℚ) (dirs : List String) :
    ∀ (files : List (Int × String)) (stD stL : RunState),
      (∀ f ∈ files, env.removeRes f.2 = RmRes.ok) →
      stD.countedFiles = stL.removedFiles →
      (loop_v3 env u3 T dirs true files stD).countedFiles
        = (loop_v3 env u3 T dirs false files stL).removedFiles := by
  intro files
  induction files with
  | nil => intro stD stL _ hinv; exact hinv
  | cons f rest ih =>
    obtain ⟨m, q⟩ := f
    intro stD stL hok hinv
    have hokq : env.removeRes q = RmRes.ok := hok (m, q) (List.mem_cons_self _ _)
    have hokr : ∀ f ∈ rest, env.removeRes f.2 = RmRes.ok :=
      fun f hf => hok f (List.mem_cons_of_mem _ hf)
    by_cases hq : is_file_recent env q 24 = true
    · simp only [loop_v3, hq, if_true]
      exact ih _ _ hokr hinv
    · simp only [Bool.not_eq_true] at hq
      simp only [loop_v3, hq]
      by_cases hu : env.inUse q = true
      · simp only [hu, if_true]
        exact ih _ _ hokr hinv
      · simp only [Bool.not_eq_true] at hu
        simp only [hu]
        by_cases hc : (currentUsage_v3 u3 T dirs q).isSome = true
        · simp only [hc, if_true]
          exact hinv
        · simp only [Bool.not_eq_true] at hc
          simp only [hc]
          exact ih _ _ hokr (deleteStep_v3_dry_live env q stD stL hokq hinv)

lemma deleteLoop_v1_removed (env : Env) :
    ∀ (files : List (Int × String)) (st : RunState),
      (∀ f ∈ files, env.fileExists f.2 = true ∧ (env.size f.2).isSome = true ∧
         env.removeRes f.2 = RmRes.ok) →
      (deleteLoop_v1 env files st).removedFiles
        = st.removedFiles ++ files.map Prod.snd := by
  intro files
  induction files with
  | nil => intro st _; simp [deleteLoop_v1]
  | cons f rest ih =>
    obtain ⟨m, q⟩ := f
    intro st hcond
    obtain ⟨hex, hsz, hok⟩ := hcond (m, q) (List.mem_cons_self _ _)
    rcases hszv : env.size q with _ | sz
    · rw [hszv] at hsz
      simp at hsz
    · simp only [deleteLoop_v1, hex, if_true, hszv, hok]
      rw [ih _ fun f hf => hcond f (List.mem_cons_of_mem _ hf)]
      simp

/-- Claim C6, counterexample: with a single deletable candidate whose
remove raises `OSError`, the v2 dry run reports it as would-delete while
the equivalent live run (same candidates, same probes, same gates) removes
nothing from the filesystem — the sets differ. -/
theorem c6_dry_run_differs_on_failed_remove :
    (run_v2 envFailRemove 70 ["/logs"] true [(0, "/logs/a.log")]).countedFiles
      = ["/logs/a.log"] ∧
    (run_v2 envFailRemove 70 ["/logs"] false [(0, "/logs/a.log")]).removedFiles
      = [] ∧
    (run_v2 envFailRemove 70 ["/logs"] false [(0, "/logs/a.log")]).failedFiles
      = ["/logs/a.log"] := by
  refine ⟨by decide, by decide, by decide⟩

/-- Claim C6 as amended: the dry-run would-delete set equals the live-run
deleted set — in quota mode (v1) and threshold mode (v2 and v3) alike —
provided every candidate still exists with a readable size and every
attempted remove succeeds; when a remove fails or a file vanishes, the live
run removes fewer files than the dry run reports. -/
theorem c6_dry_run_fidelity_when_removes_succeed (env : Env) (u3 : String → ℚ)
    (T : ℚ) (dirs : List String) (percent : Nat) (cands : List (Int × String))
    (hok : ∀ f ∈ cands, env.removeRes f.2 = RmRes.ok)
    (hex : ∀ f ∈ cands, env.fileExists f.2 = true)
    (hsz : ∀ f ∈ cands, (env.size f.2).isSome = true) :
    wouldDelete_v1 cands percent = (run_v1 env percent false cands).removedFiles ∧
    (run_v2 env T dirs true cands).countedFiles
      = (run_v2 env T dirs false cands).removedFiles ∧
    (run_v3 env u3 T dirs true cands).countedFiles
      = (run_v3 env u3 T dirs false cands).removedFiles := by
  refine ⟨?_, ?_, ?_⟩
  · have hsub : ∀ f ∈ filesToDelete_v1 cands percent, f ∈ cands := by
      intro f hf
      simp only [filesToDelete_v1] at hf
      exact ((List.perm_insertionSort pairLeDesc cands).mem_iff).mp
        (List.drop_subset _ _ hf)
    by_cases hdc : deleteCount_v1 cands.length percent = 0
    · have hfd0 : filesToDelete_v1 cands percent = [] := by
        simp only [filesToDelete_v1]
        rw [sortDesc_length, hdc, Nat.sub_zero]
        exact List.drop_eq_nil_of_le (le_of_eq (sortDesc_length cands))
      simp [run_v1, hdc, wouldDelete_v1, hfd0, RunState.init]
    · simp only [run_v1]
      rw [if_neg hdc, if_neg Bool.false_ne_true]
      rw [deleteLoop_v1_removed env (filesToDelete_v1 cands percent) RunState.init
        fun f hf => ⟨hex f (hsub f hf), hsz f (hsub f hf), hok f (hsub f hf)⟩]
      simp [wouldDelete_v1, RunState.init]
  · exact loop_v2_dry_live env T dirs (sortAsc cands).reverse RunState.init
      RunState.init
      (fun f hf => hok f (((List.perm_insertionSort pairLeAsc cands).mem_iff).mp
        (List.mem_reverse.mp hf)))
      rfl
  · exact loop_v3_dry_live env u3 T dirs (sortAsc cands) RunState.init
      RunState.init
      (fun f hf => hok f (((List.perm_insertionSort pairLeAsc cands).mem_iff).mp hf))
      rfl

/-- Witness for the amended claim C6 at a concrete input where nothing
fails: the dry-run report and the live deleted set are both the two
candidates, oldest-first in v3 and — per the v2 iteration order — in both
runs of v2. -/
theorem c6_dry_run_fidelity_witness :
    ((∀ f ∈ candsPair, envBase.removeRes f.2 = RmRes.ok) ∧
     (∀ f ∈ candsPair, envBase.fileExists f.2 = true) ∧
     (∀ f ∈ candsPair, (envBase.size f.2).isSome = true)) ∧
    (wouldDelete_v1 candsPair 50 = (run_v1 envBase 50 false candsPair).removedFiles ∧
     (run_v2 envBase 70 ["/logs"] true candsPair).countedFiles
        = (run_v2 envBase 70 ["/logs"] false candsPair).removedFiles ∧
     (run_v3 envBase (fun _ => (90 : ℚ)) 70 ["/logs"] true candsPair).countedFiles
        = (run_v3 envBase (fun _ => (90 : ℚ)) 70 ["/logs"] false candsPair).removedFiles) :=
  ⟨⟨by decide, by decide, by decide⟩,
   c6_dry_run_fidelity_when_removes_succeed envBase (fun _ => (90 : ℚ)) 70
     ["/logs"] 50 candsPair (by decide) (by decide) (by decide)⟩

lemma data_of_mk (l : List Char) : (String.mk l).data = l := rfl

lemma dotStarThen_append (k : List Char → Bool) :
    ∀ (pre suf : List Char), '\n' ∉ pre → k suf = true →
      dotStarThen k (pre ++ suf) = true := by
  intro pre
  induction pre with
  | nil =>
    intro suf _ hk
    cases suf with
    | nil => simpa [dotStarThen] using hk
    | cons c cs => simp [dotStarThen, hk]
  | cons c cs ih =>
    intro suf hn hk
    have hcne : c ≠ '\n' := fun h => hn (List.mem_cons.mpr (Or.inl h.symm))
    have hrec := ih suf (fun h => hn (List.mem_cons_of_mem c h)) hk
    simp only [List.cons_append, dotStarThen]
    simp [hrec, hcne]

lemma matchSeq_date (c1 c2 c3 c4 c5 c6 : Char)
    (h1 : isPyDigit c1 = true) (h2 : isPyDigit c2 = true)
    (h3 : isPyDigit c3 = true) (h4 : isPyDigit c4 = true)
    (h5 : isPyDigit c5 = true) (h6 : isPyDigit c6 = true) :
    matchSeq dateToks endDollar
      ('.' :: 'l' :: 'o' :: 'g' :: '.' :: '2' :: '0' :: c1 :: c2 :: '-' ::
        c3 :: c4 :: '-' :: c5 :: c6 :: []) = true := by
  have e : dateToks
      = [Tok.lit '.', Tok.lit 'l', Tok.lit 'o', Tok.lit 'g', Tok.lit '.',
         Tok.lit '2', Tok.lit '0', Tok.digit, Tok.digit, Tok.lit '-',
         Tok.digit, Tok.digit, Tok.lit '-', Tok.digit, Tok.digit] := rfl
  rw [e]
  simp [matchSeq, tokMatch, endDollar, h1, h2, h3, h4, h5, h6]

lemma matchSeq_dateHour (c1 c2 c3 c4 c5 c6 c7 c8 : Char)
    (h1 : isPyDigit c1 = true) (h2 : isPyDigit c2 = true)
    (h3 : isPyDigit c3 = true) (h4 : isPyDigit c4 = true)
    (h5 : isPyDigit c5 = true) (h6 : isPyDigit c6 = true)
    (h7 : isPyDigit c7 = true) (h8 : isPyDigit c8 = true) :
    matchSeq dateHourToks endDollar
      ('.' :: 'l' :: 'o' :: 'g' :: '.' :: '2' :: '0' :: c1 :: c2 :: '-' ::
        c3 :: c4 :: '-' :: c5 :: c6 :: '-' :: c7 :: c8 :: []) = true := by
  have e : dateHourToks
      = [Tok.lit '.', Tok.lit 'l', Tok.lit 'o', Tok.lit 'g', Tok.lit '.',
         Tok.lit '2', Tok.lit '0', Tok.digit, Tok.digit, Tok.lit '-',
         Tok.digit, Tok.digit, Tok.lit '-', Tok.digit, Tok.digit, Tok.lit '-',
         Tok.digit, Tok.digit] := rfl
  rw [e]
  simp [matchSeq, tokMatch, endDollar, h1, h2, h3, h4, h5, h6, h7, h8]

/-- Claim C8, counterexample: the claim quantifies over the File Classifier
of each script, but v1's classifier (`log_cleaner.py` lines 34-37) has no
`.log.YYYY-MM-DD` / `.log.YYYY-MM-DD-HH` patterns and rejects such names,
while v2's and v3's accept them. -/
theorem c8_v1_rejects_date_suffix_names :
    isLogName_v1 "app.log.2025-12-01" = false ∧
    isLogName_v1 "app.log.2025-12-01-03" = false ∧
    isLogName_v2 "app.log.2025-12-01" = true ∧
    isLogName_v3 "app.log.2025-12-01-03" = true := by
  refine ⟨by decide, by decide, by decide, by decide⟩

/-- Claim C8 as amended: for every base name of the form
`<name>.log.YYYY-MM-DD` or `<name>.log.YYYY-MM-DD-HH` with a year starting
in 20 (and `<name>` free of newline characters, which Python's `.*` cannot
cross), the v2 and v3 classifiers — the ones whose pattern lists contain
the rotated-with-date-suffix rules — classify the name as a managed log
file; v1's classifier does not recognise these forms. -/
theorem c8_v2_v3_accept_date_suffix_names (name : String)
    (c1 c2 c3 c4 c5 c6 c7 c8 : Char)
    (hn : '\n' ∉ name.data)
    (h1 : isPyDigit c1 = true) (h2 : isPyDigit c2 = true)
    (h3 : isPyDigit c3 = true) (h4 : isPyDigit c4 = true)
    (h5 : isPyDigit c5 = true) (h6 : isPyDigit c6 = true)
    (h7 : isPyDigit c7 = true) (h8 : isPyDigit c8 = true) :
    isLogName_v2 (String.mk (name.data ++
        ('.' :: 'l' :: 'o' :: 'g' :: '.' :: '2' :: '0' :: c1 :: c2 :: '-' ::
          c3 :: c4 :: '-' :: c5 :: c6 :: []))) = true ∧
    isLogName_v3 (String.mk (name.data ++
        ('.' :: 'l' :: 'o' :: 'g' :: '.' :: '2' :: '0' :: c1 :: c2 :: '-' ::
          c3 :: c4 :: '-' :: c5 :: c6 :: []))) = true ∧
    isLogName_v2 (String.mk (name.data ++
        ('.' :: 'l' :: 'o' :: 'g' :: '.' :: '2' :: '0' :: c1 :: c2 :: '-' ::
          c3 :: c4 :: '-' :: c5 :: c6 :: '-' :: c7 :: c8 :: []))) = true ∧
    isLogName_v3 (String.mk (name.data ++
        ('.' :: 'l' :: 'o' :: 'g' :: '.' :: '2' :: '0' :: c1 :: c2 :: '-' ::
          c3 :: c4 :: '-' :: c5 :: c6 :: '-' :: c7 :: c8 :: []))) = true := by
  have hdate := matchSeq_date c1 c2 c3 c4 c5 c6 h1 h2 h3 h4 h5 h6
  have hhour := matchSeq_dateHour c1 c2 c3 c4 c5 c6 c7 c8 h1 h2 h3 h4 h5 h6 h7 h8
  have hd : dateSuffixPat false (name.data ++
      ('.' :: 'l' :: 'o' :: 'g' :: '.' :: '2' :: '0' :: c1 :: c2 :: '-' ::
        c3 :: c4 :: '-' :: c5 :: c6 :: [])) = true := by
    unfold dateSuffixPat
    exact dotStarThen_append _ name.data _ hn hdate
  have hh : dateSuffixPat true (name.data ++
      ('.' :: 'l' :: 'o' :: 'g' :: '.' :: '2' :: '0' :: c1 :: c2 :: '-' ::
        c3 :: c4 :: '-' :: c5 :: c6 :: '-' :: c7 :: c8 :: [])) = true := by
    unfold dateSuffixPat
    exact dotStarThen_append _ name.data _ hn hhour
  refine ⟨?_, ?_, ?_, ?_⟩
  · simp [isLogName_v2, data_of_mk, hd]
  · simp [isLogName_v3, data_of_mk, hd]
  · simp [isLogName_v2, data_of_mk, hh]
  · simp [isLogName_v3, data_of_mk, hh]

/-- Witness for the amended claim C8 at the concrete names
`server.log.2025-12-01` and `server.log.2025-12-01-03`. -/
theorem c8_v2_v3_accept_witness :
    ('\n' ∉ "server".data ∧ isPyDigit '2' = true ∧ isPyDigit '5' = true ∧
     isPyDigit '1' = true ∧ isPyDigit '0' = true ∧ isPyDigit '3' = true) ∧
    (isLogName_v2 (String.mk ("server".data ++
        ('.' :: 'l' :: 'o' :: 'g' :: '.' :: '2' :: '0' :: '2' :: '5' :: '-' ::
          '1' :: '2' :: '-' :: '0' :: '1' :: []))) = true ∧
     isLogName_v3 (String.mk ("server".data ++
        ('.' :: 'l' :: 'o' :: 'g' :: '.' :: '2' :: '0' :: '2' :: '5' :: '-' ::
          '1' :: '2' :: '-' :: '0' :: '1' :: []))) = true ∧
     isLogName_v2 (String.mk ("server".data ++
        ('.' :: 'l' :: 'o' :: 'g' :: '.' :: '2' :: '0' :: '2' :: '5' :: '-' ::
          '1' :: '2' :: '-' :: '0' :: '1' :: '-' :: '0' :: '3' :: []))) = true ∧
     isLogName_v3 (String.mk ("server".data ++
        ('.' :: 'l' :: 'o' :: 'g' :: '.' :: '2' :: '0' :: '2' :: '5' :: '-' ::
          '1' :: '2' :: '-' :: '0' :: '1' :: '-' :: '0' :: '3' :: []))) = true) :=
  ⟨⟨by decide, rfl, rfl, rfl, rfl, rfl⟩,
   c8_v2_v3_accept_date_suffix_names "server" '2' '5' '1' '2' '0' '1' '0' '3'
     (by decide) rfl rfl rfl rfl rfl rfl rfl rfl⟩

/-- Claim C10 (confirmed): the per-file stop check matches roots by raw
string prefix (`startswith`), not by path components.  With configured
roots `/var/log` and `/var/log2`, a file under `/var/log2` also string-
prefix-matches `/var/log`, so when `/var/log` samples at or below the
threshold the whole loop stops — the file is not deleted and nothing after
it is processed — regardless of the usage of `/var/log2`. -/
theorem c10_prefix_root_probe_stops_loop (env : Env) (u3 : String → ℚ) (T : ℚ)
    (dry : Bool) (m : Int) (p : String) (rest : List (Int × String))
    (st : RunState) (u : ℚ)
    (hp : "/var/log2".data.isPrefixOf p.data = true)
    (hrec : is_file_recent env p 24 = false)
    (huse : env.inUse p = false)
    (hu : env.usage "/var/log" = some u) (hut : u ≤ T)
    (hu3 : u3 "/var/log" ≤ T) :
    currentUsage_v2 env T ["/var/log", "/var/log2"] p = some u ∧
    loop_v2 env T ["/var/log", "/var/log2"] dry ((m, p) :: rest) st = st ∧
    loop_v3 env u3 T ["/var/log", "/var/log2"] dry ((m, p) :: rest) st = st := by
  have hpp : "/var/log".data <+: p.data := by
    have h2 := List.isPrefixOf_iff_prefix.mp hp
    exact List.IsPrefix.trans ⟨['2'], rfl⟩ h2
  have hp1 : "/var/log".data.isPrefixOf p.data = true :=
    List.isPrefixOf_iff_prefix.mpr hpp
  have hcu : currentUsage_v2 env T ["/var/log", "/var/log2"] p = some u := by
    simp only [currentUsage_v2, hp1, if_true, hu]
    simp [hut]
  refine ⟨hcu, ?_, ?_⟩
  · simp only [loop_v2, hrec, huse, hcu]
    simp
  · have hcu3 : (currentUsage_v3 u3 T ["/var/log", "/var/log2"] p).isSome = true := by
      simp only [currentUsage_v3, hp1, if_true]
      simp [hu3]
    simp only [loop_v3, hrec, huse, hcu3]
    simp

/-- Witness for claim C10 at a concrete input: the file
`/var/log2/app.log` with roots `/var/log` (at 50 percent) and `/var/log2`
(at 99 percent), threshold 70. -/
theorem c10_prefix_root_probe_witness :
    ("/var/log2".data.isPrefixOf "/var/log2/app.log".data = true ∧
     is_file_recent envTwoRoots "/var/log2/app.log" 24 = false ∧
     envTwoRoots.inUse "/var/log2/app.log" = false ∧
     envTwoRoots.usage "/var/log" = some 50 ∧ (50 : ℚ) ≤ 70 ∧
     (fun _ : String => (60 : ℚ)) "/var/log" ≤ 70) ∧
    (currentUsage_v2 envTwoRoots 70 ["/var/log", "/var/log2"] "/var/log2/app.log"
        = some 50 ∧
     loop_v2 envTwoRoots 70 ["/var/log", "/var/log2"] false
        [(0, "/var/log2/app.log")] RunState.init = RunState.init ∧
     loop_v3 envTwoRoots (fun _ => (60 : ℚ)) 70 ["/var/log", "/var/log2"] false
        [(0, "/var/log2/app.log")] RunState.init = RunState.init) :=
  ⟨⟨by decide, by decide, rfl, by decide, by norm_num, by norm_num⟩,
   c10_prefix_root_probe_stops_loop envTwoRoots (fun _ => (60 : ℚ)) 70 false 0
     "/var/log2/app.log" [] RunState.init 50 (by decide) (by decide) rfl
     (by decide) (by norm_num) (by norm_num)⟩

end LogCleaner
